import Mathlib

/-!
Verification of `ds-common-logger-rs-lib` (`src/lib.rs`) against its
specification.  The library exposes a single entry point `init_tracing`
that, guarded by a `std::sync::Once`, resolves an `EnvFilter` from
`RUST_LOG`, picks JSON or compact output from `LOG_FORMAT`, assembles a
registry / error-layer / fmt-layer subscriber, registers it globally via
`SubscriberInitExt::init`, installs a panic hook that logs panics, and
emits one confirmation record.

The development below is a shallow embedding of that routine: the process
environment, the resolved configuration, the assembled subscriber, the
panic hook, and the sequential and concurrent semantics of the `Once`
guard are all explicit Lean data, and `init_tracing` is a function on an
explicit process state.
-/

namespace DsLogger

/-! ## Process environment

`std::env::var` returns `Err(NotPresent)` when the variable is unset and
`Err(NotUnicode)` when it is set to a value that is not valid Unicode;
otherwise it returns the value as a `String`.  We model a variable's
state by `EnvVal` and the two relevant variables by `Env`. -/

inductive EnvVal where
  | unset
  | nonUnicode
  | str (s : String)
  deriving DecidableEq, Repr

structure Env where
  rust_log : EnvVal
  log_format : EnvVal
  deriving DecidableEq, Repr

inductive VarError where
  | notPresent
  | notUnicode
  deriving DecidableEq, Repr

/-- Reading one environment variable, as `std::env::var` does. -/
def envVar : EnvVal → Except VarError String
  | .unset => .error .notPresent
  | .nonUnicode => .error .notUnicode
  | .str s => .ok s

/-! ## ASCII case-insensitive comparison

Rust's `str::eq_ignore_ascii_case` compares the two strings byte for byte
after lowering ASCII uppercase letters; non-ASCII bytes are untouched.
Lowering `A`..`Z` per character and comparing character lists is
equivalent, since UTF-8 encoding is injective and ASCII lowering never
touches the bytes of a multi-byte character. -/

def asciiToLower (c : Char) : Char :=
  if 'A' ≤ c ∧ c ≤ 'Z' then Char.ofNat (c.toNat + 32) else c

def eqIgnoreAsciiCase (a b : String) : Bool :=
  a.data.map asciiToLower == b.data.map asciiToLower

/-- The format decision of `init_tracing` (src/lib.rs lines 158-160):
`std::env::var("LOG_FORMAT").map(|v| v.eq_ignore_ascii_case("json")).unwrap_or(false)`. -/
def use_json (env : Env) : Bool :=
  match (envVar env.log_format).map (fun v => eqIgnoreAsciiCase v "json") with
  | .ok b => b
  | .error _ => false

/-! ## Filter resolution

`EnvFilter::try_from_default_env()` reads `RUST_LOG` with `std::env::var`
and then parses it, erroring if the variable is missing, not Unicode, or
fails to parse.  The parser itself lives in the external
`tracing-subscriber` crate; we abstract it as a predicate `parses` on the
directive string, which is all the claims need. -/

structure EnvFilter where
  directives : String
  deriving DecidableEq, Repr

def EnvFilter.ofDirectives (s : String) : EnvFilter := ⟨s⟩

def try_from_default_env (parses : String → Bool) (v : EnvVal) :
    Except Unit EnvFilter :=
  match envVar v with
  | .ok s => if parses s then .ok (EnvFilter.ofDirectives s) else .error ()
  | .error _ => .error ()

/-- The filter resolution of `init_tracing` (src/lib.rs line 155):
`EnvFilter::try_from_default_env().unwrap_or_else(|_| EnvFilter::new("info"))`. -/
def resolve_filter (parses : String → Bool) (env : Env) : EnvFilter :=
  match try_from_default_env parses env.rust_log with
  | .ok f => f
  | .error _ => EnvFilter.ofDirectives "info"

/-! ## The fmt layer configuration

`fmt::layer()` starts from the crate defaults (full format, target shown,
thread ids and names hidden, no span lifecycle events).  `.json()` /
`.compact()` switch the format; `with_current_span` and `with_span_list`
exist only on the JSON format (both default to true there); the other
`with_*` builders set the corresponding flags. -/

structure FmtSpan where
  on_new : Bool
  on_enter : Bool
  on_exit : Bool
  on_close : Bool
  deriving DecidableEq, Repr

def FmtSpan.NONE : FmtSpan := ⟨false, false, false, false⟩

def FmtSpan.CLOSE : FmtSpan := ⟨false, false, false, true⟩

inductive FmtFormat where
  | full
  | compact
  | json (display_current_span : Bool) (display_span_list : Bool)
  deriving DecidableEq, Repr

structure FmtLayerCfg where
  format : FmtFormat
  display_target : Bool
  display_thread_ids : Bool
  display_thread_names : Bool
  span_events : FmtSpan
  deriving DecidableEq, Repr

/-- Crate defaults of `tracing_subscriber::fmt::layer()`. -/
def fmtLayer : FmtLayerCfg :=
  { format := .full
  , display_target := true
  , display_thread_ids := false
  , display_thread_names := false
  , span_events := FmtSpan.NONE }

def FmtLayerCfg.json (c : FmtLayerCfg) : FmtLayerCfg :=
  { c with format := .json true true }

def FmtLayerCfg.compact (c : FmtLayerCfg) : FmtLayerCfg :=
  { c with format := .compact }

def FmtLayerCfg.with_target (c : FmtLayerCfg) (b : Bool) : FmtLayerCfg :=
  { c with display_target := b }

def FmtLayerCfg.with_thread_ids (c : FmtLayerCfg) (b : Bool) : FmtLayerCfg :=
  { c with display_thread_ids := b }

def FmtLayerCfg.with_thread_names (c : FmtLayerCfg) (b : Bool) : FmtLayerCfg :=
  { c with display_thread_names := b }

def FmtLayerCfg.with_current_span (c : FmtLayerCfg) (b : Bool) : FmtLayerCfg :=
  { c with format := match c.format with
      | .json _ sl => .json b sl
      | f => f }

def FmtLayerCfg.with_span_list (c : FmtLayerCfg) (b : Bool) : FmtLayerCfg :=
  { c with format := match c.format with
      | .json cs _ => .json cs b
      | f => f }

def FmtLayerCfg.with_span_events (c : FmtLayerCfg) (e : FmtSpan) : FmtLayerCfg :=
  { c with span_events := e }

/-- Whether each record rendered by this layer carries the current-span
hierarchy and span list.  Modelled from the `tracing-subscriber` renderer
contract: only the JSON formatter has `span`/`spans` fields, emitted when
`display_current_span` / `display_span_list` are set; the compact and
full text formats have no such per-record span-context fields. -/
def FmtLayerCfg.emits_span_context (c : FmtLayerCfg) : Bool :=
  match c.format with
  | .json cs sl => cs || sl
  | _ => false

/-- The fmt layer built in the `use_json` branch (src/lib.rs lines 167-176). -/
def json_fmt_layer : FmtLayerCfg :=
  ((((((fmtLayer.json).with_target true).with_thread_ids true).with_thread_names
      true).with_current_span true).with_span_list true).with_span_events FmtSpan.CLOSE

/-- The fmt layer built in the other branch (src/lib.rs lines 179-185). -/
def compact_fmt_layer : FmtLayerCfg :=
  ((((fmtLayer.compact).with_target true).with_thread_ids true).with_thread_names
      true).with_span_events FmtSpan.CLOSE

/-! ## Log records -/

inductive Level where
  | trace
  | debug
  | info
  | warn
  | error
  deriving DecidableEq, Repr

structure LogRecord where
  level : Level
  message : String
  fields : List (String × String)
  deriving DecidableEq, Repr

/-- The confirmation record emitted at the end of the installation body
(src/lib.rs lines 204-207). -/
def confirmation_record (uj : Bool) : LogRecord :=
  { level := .info
  , message := "Tracing initialized"
  , fields := [("format", if uj then "json" else "compact")] }

/-! ## The panic hook

`std::panic::PanicHookInfo` exposes an optional source `Location` (file,
line, column; the hook uses file and line) and a `Display` rendering of
the whole panic info, which the hook captures as the `payload` field. -/

structure PanicLocation where
  file : String
  line : Nat
  column : Nat
  deriving DecidableEq, Repr

structure PanicInfo where
  location : Option PanicLocation
  rendered : String
  deriving DecidableEq, Repr

/-- The `location` string computed by the installed hook (src/lib.rs
lines 192-195): `file:line`, or `"unknown"` when no location is available. -/
def panic_location_string (info : PanicInfo) : String :=
  match info.location with
  | some l => l.file ++ ":" ++ toString l.line
  | none => "unknown"

/-- The single record logged by the installed hook (src/lib.rs lines 197-201). -/
def panic_hook_record (info : PanicInfo) : LogRecord :=
  { level := .error
  , message := "Application panicked"
  , fields :=
      [ ("location", panic_location_string info)
      , ("payload", info.rendered) ] }

inductive HookFailure where
  | hookPanicked
  deriving DecidableEq, Repr

/-- A panic hook maps the panic info to the log records it emits, or
fails if the hook body itself panics. -/
def PanicHook : Type := PanicInfo → Except HookFailure (List LogRecord)

/-- The hook installed by `init_tracing` (src/lib.rs lines 191-202): it
formats the location, renders the payload and emits one error record; all
of these operations are total, so the hook never fails. -/
def installed_panic_hook : PanicHook :=
  fun info => .ok [panic_hook_record info]

/-- The default hook prints to stderr; it emits no record into the
logging pipeline and never fails. -/
def default_panic_hook : PanicHook :=
  fun _ => .ok []

inductive PanicContinuation where
  | proceed
  | abortDouble
  deriving DecidableEq, Repr

/-- Modelled from the contract of Rust's panic runtime:
`std::panic::set_hook` replaces only the reporting hook, which is invoked
before unwinding; after the hook returns, the unwind (or abort, per the
build's panic strategy) proceeds exactly as it would have with the
default hook.  A panic inside the hook is a double panic and aborts. -/
def panic_runtime (hook : PanicHook) (info : PanicInfo) :
    List LogRecord × PanicContinuation :=
  match hook info with
  | .ok rs => (rs, .proceed)
  | .error _ => ([], .abortDouble)

/-! ## Process state and `init_tracing`

The durable state the routine touches: the `Once` guard (`INIT`,
src/lib.rs line 88), the process-wide subscriber slot written by
`set_global_default` (through `SubscriberInitExt::init`), the panic-hook
slot, the stream of records the pipeline has emitted, and a counter of
how many times the guarded installation body has started executing. -/

structure SubscriberCfg where
  filter : EnvFilter
  error_layer : Bool
  fmt_layer : FmtLayerCfg
  deriving DecidableEq, Repr

inductive HookSlot where
  | defaultHook
  | loggingHook
  deriving DecidableEq, Repr

def hookOf : HookSlot → PanicHook
  | .defaultHook => default_panic_hook
  | .loggingHook => installed_panic_hook

structure ProcState where
  init_complete : Bool
  init_poisoned : Bool
  global_subscriber : Option SubscriberCfg
  hook : HookSlot
  records : List LogRecord
  body_runs : Nat
  deriving DecidableEq, Repr

/-- State of a freshly started process: `Once` not run, no global
subscriber, default panic hook, nothing logged. -/
def initialState : ProcState :=
  { init_complete := false
  , init_poisoned := false
  , global_subscriber := none
  , hook := .defaultHook
  , records := []
  , body_runs := 0 }

inductive PanicMsg where
  | setGlobalDefaultFailed
  | oncePoisoned
  deriving DecidableEq, Repr

/-- The subscriber assembled by the installation body: registry, resolved
`EnvFilter`, `ErrorLayer::default()`, and the format-dependent fmt layer
(src/lib.rs lines 155-188). -/
def assembled_subscriber (parses : String → Bool) (env : Env) : SubscriberCfg :=
  { filter := resolve_filter parses env
  , error_layer := true
  , fmt_layer := if use_json env then json_fmt_layer else compact_fmt_layer }

/-- `set_global_default`, as called by `try_init`: errors if a global
subscriber is already installed, otherwise fills the slot. -/
def try_init (cfg : SubscriberCfg) (s : ProcState) : Except Unit ProcState :=
  match s.global_subscriber with
  | some _ => .error ()
  | none => .ok { s with global_subscriber := some cfg }

/-- `SubscriberInitExt::init` is
`self.try_init().expect("failed to set global default subscriber")`: a
registration failure is a panic, not a swallowed error. -/
def subscriber_init (cfg : SubscriberCfg) (s : ProcState) :
    Except PanicMsg ProcState :=
  match try_init cfg s with
  | .ok s' => .ok s'
  | .error _ => .error .setGlobalDefaultFailed

/-- The guarded installation body (src/lib.rs lines 153-208): resolve
filter and format, assemble the subscriber, register it globally
(`.init()`), install the panic hook, emit the confirmation record. -/
def install_body (parses : String → Bool) (env : Env) (s : ProcState) :
    Except PanicMsg ProcState :=
  let cfg := assembled_subscriber parses env
  match subscriber_init cfg { s with body_runs := s.body_runs + 1 } with
  | .error e => .error e
  | .ok s1 =>
      .ok { s1 with
              hook := .loggingHook
            , records := s1.records ++ [confirmation_record (use_json env)] }

/-- `init_tracing` (src/lib.rs lines 152-209): `INIT.call_once(body)`.
A completed `Once` makes the call a no-op; a poisoned `Once` (the body
panicked on an earlier call) makes `call_once` itself panic; otherwise
the body runs and, on normal return, the `Once` completes. -/
def init_tracing (parses : String → Bool) (env : Env) (s : ProcState) :
    Except PanicMsg ProcState :=
  if s.init_complete then .ok s
  else if s.init_poisoned then .error .oncePoisoned
  else
    match install_body parses env s with
    | .ok s' => .ok { s' with init_complete := true }
    | .error e => .error e

/-- N sequential calls of `init_tracing` from one thread; a panic aborts
the sequence. -/
def init_tracing_iter (parses : String → Bool) (env : Env) :
    Nat → ProcState → Except PanicMsg ProcState
  | 0, s => .ok s
  | n + 1, s =>
      match init_tracing parses env s with
      | .ok s' => init_tracing_iter parses env n s'
      | .error e => .error e

/-- The state produced by the first `init_tracing` call in a fresh
process. -/
def first_state (parses : String → Bool) (env : Env) : ProcState :=
  { init_complete := true
  , init_poisoned := false
  , global_subscriber := some (assembled_subscriber parses env)
  , hook := .loggingHook
  , records := [confirmation_record (use_json env)]
  , body_runs := 1 }

/-! ## Concurrent semantics of the `Once` guard

Modelled from the contract of `std::sync::Once::call_once`: on the first
call the guard moves to a running state owned by the calling thread,
which executes the closure; any thread arriving while the closure runs
blocks; when the closure returns the guard completes and every blocked or
later arrival returns without running the closure.  `K` threads each call
`init_tracing` once; `body_runs` counts executions of the installation
body. -/

inductive OncePhase where
  | incomplete
  | running (owner : Nat)
  | complete
  deriving DecidableEq, Repr

inductive TPC where
  | entry
  | body
  | waiting
  | finished
  deriving DecidableEq, Repr

structure CState (K : Nat) where
  phase : OncePhase
  pc : Fin K → TPC
  body_runs : Nat

/-- All K threads about to call `init_tracing`, guard untouched. -/
def initC (K : Nat) : CState K :=
  { phase := .incomplete, pc := fun _ => .entry, body_runs := 0 }

inductive onceStep {K : Nat} : CState K → CState K → Prop where
  | acquire (t : Fin K) (s : CState K)
      (hpc : s.pc t = .entry) (hph : s.phase = .incomplete) :
      onceStep s
        { phase := .running t.val
        , pc := Function.update s.pc t .body
        , body_runs := s.body_runs + 1 }
  | block (t : Fin K) (u : Nat) (s : CState K)
      (hpc : s.pc t = .entry) (hph : s.phase = .running u) :
      onceStep s
        { phase := s.phase
        , pc := Function.update s.pc t .waiting
        , body_runs := s.body_runs }
  | returnFast (t : Fin K) (s : CState K)
      (hpc : s.pc t = .entry) (hph : s.phase = .complete) :
      onceStep s
        { phase := s.phase
        , pc := Function.update s.pc t .finished
        , body_runs := s.body_runs }
  | finishBody (t : Fin K) (s : CState K)
      (hpc : s.pc t = .body) :
      onceStep s
        { phase := .complete
        , pc := Function.update s.pc t .finished
        , body_runs := s.body_runs }
  | wake (t : Fin K) (s : CState K)
      (hpc : s.pc t = .waiting) (hph : s.phase = .complete) :
      onceStep s
        { phase := s.phase
        , pc := Function.update s.pc t .finished
        , body_runs := s.body_runs }

/-- States reachable by interleaving the K callers. -/
def ReachableC (K : Nat) (s : CState K) : Prop :=
  Relation.ReflTransGen onceStep (initC K) s

/-- Inductive invariant of the guard: the run counter matches the phase,
a thread is in the installation body exactly when it owns the running
phase, and a thread can only have returned once the guard is complete. -/
def OnceInv {K : Nat} (s : CState K) : Prop :=
  (s.body_runs = match s.phase with | .incomplete => 0 | _ => 1) ∧
  (∀ t : Fin K, s.pc t = .body ↔ s.phase = .running t.val) ∧
  (∀ t : Fin K, s.pc t = .finished → s.phase = .complete)

/-- A subscriber installed by other means before `init_tracing` runs, as
in the registration-conflict scenario. -/
def foreign_subscriber : SubscriberCfg :=
  { filter := EnvFilter.ofDirectives "debug"
  , error_layer := false
  , fmt_layer := fmtLayer }

/-- A process in which some other component has already registered a
global subscriber when `init_tracing` is first called. -/
def stateWithForeignSubscriber : ProcState :=
  { initialState with global_subscriber := some foreign_subscriber }

/-! ## Basic lemmas about `init_tracing` -/

theorem init_tracing_fresh (parses : String → Bool) (env : Env) :
    init_tracing parses env initialState = .ok (first_state parses env) := rfl

theorem init_tracing_noop {parses : String → Bool} {env : Env} {s : ProcState}
    (h : s.init_complete = true) :
    init_tracing parses env s = .ok s := by
  simp [init_tracing, h]

theorem init_tracing_iter_noop {parses : String → Bool} {env : Env} {s : ProcState}
    (h : s.init_complete = true) :
    ∀ n, init_tracing_iter parses env n s = .ok s := by
  intro n
  induction n with
  | zero => rfl
  | succ n ih => simp [init_tracing_iter, init_tracing_noop h, ih]

theorem use_json_iff (env : Env) :
    use_json env = true ↔
      ∃ v, env.log_format = .str v ∧ eqIgnoreAsciiCase v "json" = true := by
  cases h : env.log_format <;> simp [use_json, envVar, h, Except.map]

/-! ## The claims -/

/-- Claim C1: however many times `init_tracing` is called sequentially
from a fresh process (N ≥ 1), the guarded installation body runs exactly
once, exactly one confirmation record is emitted, and calls 2..N change
nothing: N calls end in the same state as the single first call, and a
further call on that state is a no-op. -/
theorem c1_sequential_idempotence (parses : String → Bool) (env : Env)
    (N : Nat) (hN : 1 ≤ N) :
    ∃ s : ProcState,
      init_tracing_iter parses env N initialState = .ok s ∧
      init_tracing parses env initialState = .ok s ∧
      s.body_runs = 1 ∧
      s.records = [confirmation_record (use_json env)] ∧
      init_tracing parses env s = .ok s := by
  obtain ⟨n, rfl⟩ : ∃ n, N = n + 1 := ⟨N - 1, by omega⟩
  refine ⟨first_state parses env, ?_, init_tracing_fresh parses env, rfl, rfl, ?_⟩
  · simp [init_tracing_iter, init_tracing_fresh parses env,
      init_tracing_iter_noop (rfl : (first_state parses env).init_complete = true)]
  · exact init_tracing_noop rfl

theorem c1_witness :
    1 ≤ 3 ∧
    ∃ s : ProcState,
      init_tracing_iter (fun _ => true) ⟨.unset, .unset⟩ 3 initialState = .ok s ∧
      init_tracing (fun _ => true) ⟨.unset, .unset⟩ initialState = .ok s ∧
      s.body_runs = 1 ∧
      s.records = [confirmation_record (use_json ⟨.unset, .unset⟩)] ∧
      init_tracing (fun _ => true) ⟨.unset, .unset⟩ s = .ok s :=
  ⟨by decide, c1_sequential_idempotence (fun _ => true) ⟨.unset, .unset⟩ 3 (by decide)⟩

/-- Claim C2 concerns a process in which a global subscriber was already
installed by other means: the claim (and the crate's own doc comment,
src/lib.rs lines 116-119) says the registration failure is swallowed and
the call returns normally, but `SubscriberInitExt::init` is
`try_init().expect(..)`, so the call panics with "failed to set global
default subscriber".  This theorem evaluates the code at that failing
input. -/
theorem c2_registration_conflict_panics :
    init_tracing (fun _ => true) ⟨.unset, .unset⟩ stateWithForeignSubscriber
      = .error .setGlobalDefaultFailed := rfl

/-- Claim C3: the installed fmt layer is the JSON one exactly when
`LOG_FORMAT` is set to a valid-Unicode value that ASCII-case-insensitively
equals "json"; in every other environment (unset, non-Unicode, any other
value) it is the compact one. -/
theorem c3_format_selection (parses : String → Bool) (env : Env) :
    ∃ s cfg,
      init_tracing parses env initialState = .ok s ∧
      s.global_subscriber = some cfg ∧
      (cfg.fmt_layer = json_fmt_layer ↔
        ∃ v, env.log_format = .str v ∧ eqIgnoreAsciiCase v "json" = true) ∧
      (cfg.fmt_layer = json_fmt_layer ∨ cfg.fmt_layer = compact_fmt_layer) := by
  refine ⟨first_state parses env, assembled_subscriber parses env,
    init_tracing_fresh parses env, rfl, ?_, ?_⟩
  · rw [← use_json_iff]
    cases hu : use_json env with
    | true => simp [assembled_subscriber, hu]
    | false =>
        simp only [assembled_subscriber, hu, if_neg Bool.false_ne_true]
        constructor
        · intro h
          exact absurd h (by decide)
        · intro h
          exact absurd h (by decide)
  · cases hu : use_json env <;> simp [assembled_subscriber, hu]

/-- Claim C4: when `RUST_LOG` is unset, not valid Unicode, or does not
parse, the resolved filter is the default `EnvFilter::new("info")`, and
that is the filter of the installed subscriber. -/
theorem c4_default_filter (parses : String → Bool) (env : Env)
    (h : env.rust_log = .unset ∨ env.rust_log = .nonUnicode ∨
         ∃ v, env.rust_log = .str v ∧ parses v = false) :
    resolve_filter parses env = EnvFilter.ofDirectives "info" ∧
    ∃ s cfg,
      init_tracing parses env initialState = .ok s ∧
      s.global_subscriber = some cfg ∧
      cfg.filter = EnvFilter.ofDirectives "info" := by
  have hf : resolve_filter parses env = EnvFilter.ofDirectives "info" := by
    rcases h with h | h | ⟨v, hv, hp⟩ <;>
      simp [resolve_filter, try_from_default_env, envVar, *]
  exact ⟨hf, first_state parses env, assembled_subscriber parses env,
    init_tracing_fresh parses env, rfl, by simp [assembled_subscriber, hf]⟩

theorem c4_witness :
    ((⟨.unset, .str "json"⟩ : Env).rust_log = .unset ∨
     (⟨.unset, .str "json"⟩ : Env).rust_log = .nonUnicode ∨
     ∃ v, (⟨.unset, .str "json"⟩ : Env).rust_log = .str v ∧ (fun _ => true) v = false) ∧
    (resolve_filter (fun _ => true) ⟨.unset, .str "json"⟩ = EnvFilter.ofDirectives "info" ∧
     ∃ s cfg,
       init_tracing (fun _ => true) ⟨.unset, .str "json"⟩ initialState = .ok s ∧
       s.global_subscriber = some cfg ∧
       cfg.filter = EnvFilter.ofDirectives "info") :=
  ⟨Or.inl rfl, c4_default_filter (fun _ => true) ⟨.unset, .str "json"⟩ (Or.inl rfl)⟩

/-- Claim C5: after initialization the panic-hook slot holds the logging
hook, and for every panic that hook emits exactly one record, at error
level, with message "Application panicked", whose `location` field is
`file:line` when the panic has a source location and `"unknown"`
otherwise, and whose `payload` field is the rendered panic payload. -/
theorem c5_panic_hook_record (info : PanicInfo) :
    (∀ (parses : String → Bool) (env : Env), ∃ s,
      init_tracing parses env initialState = .ok s ∧ s.hook = .loggingHook) ∧
    ∃ r, hookOf .loggingHook info = .ok [r] ∧
      r.level = .error ∧
      r.message = "Application panicked" ∧
      ((∃ l, info.location = some l ∧
          r.fields.lookup "location" = some (l.file ++ ":" ++ toString l.line)) ∨
        (info.location = none ∧ r.fields.lookup "location" = some "unknown")) ∧
      r.fields.lookup "payload" = some info.rendered := by
  refine ⟨fun parses env => ⟨first_state parses env, init_tracing_fresh parses env, rfl⟩,
    panic_hook_record info, rfl, rfl, rfl, ?_, rfl⟩
  cases h : info.location with
  | some l =>
      exact Or.inl ⟨l, rfl, by
        simp [panic_hook_record, panic_location_string, h, List.lookup]⟩
  | none =>
      exact Or.inr ⟨rfl, by
        simp [panic_hook_record, panic_location_string, h, List.lookup]⟩

/-- Claim C6: the installed hook is total (it never fails on any panic
info), and under the panic runtime the continuation after the hook is
exactly the one the default hook yields — the unwind proceeds — with the
single logged record as the only added effect. -/
theorem c6_hook_preserves_termination (info : PanicInfo) :
    hookOf .loggingHook info = .ok [panic_hook_record info] ∧
    (panic_runtime (hookOf .loggingHook) info).2 = .proceed ∧
    (panic_runtime (hookOf .loggingHook) info).2
      = (panic_runtime (hookOf .defaultHook) info).2 ∧
    (panic_runtime (hookOf .loggingHook) info).1
      = (panic_runtime (hookOf .defaultHook) info).1 ++ [panic_hook_record info] :=
  ⟨rfl, rfl, rfl, rfl⟩

/-- Claim C7: the installing call registers the subscriber, installs the
logging hook, and emits exactly one record: an info-level record with
message "Tracing initialized" whose `format` field is "json" when JSON
was selected and "compact" otherwise. -/
theorem c7_confirmation_record (parses : String → Bool) (env : Env) :
    ∃ s,
      init_tracing parses env initialState = .ok s ∧
      s.global_subscriber = some (assembled_subscriber parses env) ∧
      s.hook = .loggingHook ∧
      s.records = [confirmation_record (use_json env)] ∧
      (confirmation_record (use_json env)).level = .info ∧
      (confirmation_record (use_json env)).message = "Tracing initialized" ∧
      (confirmation_record (use_json env)).fields.lookup "format"
        = some (if use_json env then "json" else "compact") := by
  refine ⟨first_state parses env, init_tracing_fresh parses env,
    rfl, rfl, rfl, rfl, rfl, ?_⟩
  simp [confirmation_record, List.lookup]

/-- Claim C8: whichever branch runs, the installed fmt layer displays the
target, thread ids and thread names and emits span-close lifecycle
events; the per-record span context (current span and span list) is
emitted exactly when the JSON format was selected. -/
theorem c8_fmt_layer_options (parses : String → Bool) (env : Env) :
    ∃ s cfg,
      init_tracing parses env initialState = .ok s ∧
      s.global_subscriber = some cfg ∧
      cfg.fmt_layer.display_target = true ∧
      cfg.fmt_layer.display_thread_ids = true ∧
      cfg.fmt_layer.display_thread_names = true ∧
      cfg.fmt_layer.span_events = FmtSpan.CLOSE ∧
      (cfg.fmt_layer.emits_span_context = true ↔ use_json env = true) := by
  refine ⟨first_state parses env, assembled_subscriber parses env,
    init_tracing_fresh parses env, rfl, ?_, ?_, ?_, ?_, ?_⟩ <;>
    cases hu : use_json env <;>
    simp [assembled_subscriber, hu] <;> decide

/-- Claim C10: the JSON decision is whole-string ASCII-only case folding
of the `LOG_FORMAT` value: any valid-Unicode value decides by
`eq_ignore_ascii_case` against "json" (so "JSON" selects JSON), while
values with surrounding whitespace, a value matching "json" only under
non-ASCII Unicode folding (long s in "jſon" lowercases to "json" under
Unicode rules but is untouched by ASCII folding), and a set-but-not-
Unicode value all select compact. -/
theorem c10_ascii_only_case_folding :
    (∀ (rl : EnvVal) (v : String),
      use_json { rust_log := rl, log_format := .str v } = eqIgnoreAsciiCase v "json") ∧
    (∀ rl : EnvVal, use_json { rust_log := rl, log_format := .unset } = false) ∧
    (∀ rl : EnvVal, use_json { rust_log := rl, log_format := .nonUnicode } = false) ∧
    use_json { rust_log := .unset, log_format := .str " json" } = false ∧
    use_json { rust_log := .unset, log_format := .str "json " } = false ∧
    use_json { rust_log := .unset, log_format := .str "jſon" } = false ∧
    use_json { rust_log := .unset, log_format := .str "JSON" } = true :=
  ⟨fun _ _ => rfl, fun _ => rfl, fun _ => rfl, by decide, by decide, by decide, by decide⟩

/-! ## The `Once` invariant -/

theorem onceInv_initC (K : Nat) : OnceInv (initC K) := by
  refine ⟨rfl, fun t => ?_, fun t h => ?_⟩
  · simp [initC]
  · simp [initC] at h

theorem onceInv_step {K : Nat} {s s' : CState K}
    (h : onceStep s s') (hI : OnceInv s) : OnceInv s' := by
  obtain ⟨h1, h2, h3⟩ := hI
  cases h with
  | acquire t s hpc hph =>
      simp only [hph] at h1
      refine ⟨by simp [h1], fun u => ?_, fun u hu => ?_⟩
      · by_cases hut : u = t
        · subst hut; simp [Function.update]
        · simp only [Function.update, dif_neg hut]
          constructor
          · intro hb
            have := (h2 u).mp hb
            rw [hph] at this
            exact absurd this (by simp)
          · intro hb
            have hval : t.val = u.val := by injection hb
            exact absurd (Fin.ext hval) (fun he => hut he.symm)
      · by_cases hut : u = t
        · subst hut; simp [Function.update] at hu
        · simp only [Function.update, dif_neg hut] at hu
          rw [hph] at h3
          exact absurd (h3 u hu) (by simp)
  | block t u s hpc hph =>
      refine ⟨h1, fun v => ?_, fun v hv => ?_⟩
      · by_cases hvt : v = t
        · subst hvt
          simp only [Function.update, dif_pos rfl]
          constructor
          · intro hb; exact absurd hb (by simp)
          · intro hb
            have := (h2 v).mpr hb
            rw [hpc] at this
            exact absurd this (by simp)
        · simp only [Function.update, dif_neg hvt]
          exact h2 v
      · by_cases hvt : v = t
        · subst hvt; simp [Function.update] at hv
        · simp only [Function.update, dif_neg hvt] at hv
          exact h3 v hv
  | returnFast t s hpc hph =>
      refine ⟨h1, fun v => ?_, fun v hv => ?_⟩
      · by_cases hvt : v = t
        · subst hvt
          simp only [Function.update, dif_pos rfl]
          rw [hph]
          simp
        · simp only [Function.update, dif_neg hvt]
          exact h2 v
      · exact hph
  | finishBody t s hpc =>
      have hphase : s.phase = .running t.val := (h2 t).mp hpc
      simp only [hphase] at h1
      refine ⟨by simp [h1], fun v => ?_, fun v hv => rfl⟩
      by_cases hvt : v = t
      · subst hvt
        simp only [Function.update, dif_pos rfl]
        simp
      · simp only [Function.update, dif_neg hvt]
        constructor
        · intro hb
          have := (h2 v).mp hb
          rw [hphase] at this
          have hval : t.val = v.val := by injection this
          exact absurd (Fin.ext hval) (fun he => hvt he.symm)
        · intro hb; exact absurd hb (by simp)
  | wake t s hpc hph =>
      refine ⟨h1, fun v => ?_, fun v hv => ?_⟩
      · by_cases hvt : v = t
        · subst hvt
          simp only [Function.update, dif_pos rfl]
          rw [hph]
          simp
        · simp only [Function.update, dif_neg hvt]
          exact h2 v
      · exact hph

theorem onceInv_reflTransGen {K : Nat} {s : CState K}
    (h : Relation.ReflTransGen onceStep (initC K) s) : OnceInv s := by
  induction h with
  | refl => exact onceInv_initC K
  | tail _ hstep ih => exact onceInv_step hstep ih

theorem onceInv_reachable {K : Nat} {s : CState K} (h : ReachableC K s) :
    OnceInv s :=
  onceInv_reflTransGen h

/-- Claim C9: in every state reachable by K threads calling the entry
point concurrently, the installation body has run at most once, at most
one thread is inside it, a thread that has returned implies the guard
(and hence the installation) is complete — no caller observes a partial
installation — and once all threads have returned (K ≥ 1) the body has
run exactly once. -/
theorem c9_concurrent_once {K : Nat} {s : CState K} (h : ReachableC K s) :
    s.body_runs ≤ 1 ∧
    (∀ t u : Fin K, s.pc t = .body → s.pc u = .body → t = u) ∧
    (∀ t : Fin K, s.pc t = .finished → s.phase = .complete) ∧
    ((∀ t : Fin K, s.pc t = .finished) → 0 < K → s.body_runs = 1) := by
  obtain ⟨h1, h2, h3⟩ := onceInv_reachable h
  refine ⟨?_, fun t u ht hu => ?_, h3, fun hall hK => ?_⟩
  · rw [h1]
    cases s.phase <;> simp
  · have h2t := (h2 t).mp ht
    have h2u := (h2 u).mp hu
    rw [h2t] at h2u
    have hval : t.val = u.val := by injection h2u
    exact Fin.ext hval
  · have hc := h3 ⟨0, hK⟩ (hall ⟨0, hK⟩)
    rw [h1, hc]

/-- Intermediate state of the one-thread trace: thread 0 has acquired the
guard and is executing the installation body. -/
def cmid : CState 1 :=
  { phase := .running 0, pc := fun _ => .body, body_runs := 1 }

/-- Final state of the one-thread trace: the guard is complete and the
caller has returned. -/
def cfinal : CState 1 :=
  { phase := .complete, pc := fun _ => .finished, body_runs := 1 }

theorem onceStep_init_cmid : onceStep (initC 1) cmid := by
  have h := onceStep.acquire (K := 1) 0 (initC 1) rfl rfl
  have hpc : Function.update (fun _ : Fin 1 => TPC.entry) (0 : Fin 1) TPC.body
      = fun _ : Fin 1 => TPC.body := by
    funext t
    have ht : t = 0 := Subsingleton.elim t 0
    subst ht
    simp
  simpa [initC, cmid, hpc] using h

theorem onceStep_cmid_cfinal : onceStep cmid cfinal := by
  have h := onceStep.finishBody (K := 1) 0 cmid rfl
  have hpc : Function.update (fun _ : Fin 1 => TPC.body) (0 : Fin 1) TPC.finished
      = fun _ : Fin 1 => TPC.finished := by
    funext t
    have ht : t = 0 := Subsingleton.elim t 0
    subst ht
    simp
  simpa [cmid, cfinal, hpc] using h

theorem reachable_cfinal : ReachableC 1 cfinal :=
  Relation.ReflTransGen.trans
    (Relation.ReflTransGen.single onceStep_init_cmid)
    (Relation.ReflTransGen.single onceStep_cmid_cfinal)

theorem c9_witness :
    ReachableC 1 cfinal ∧
    (cfinal.body_runs ≤ 1 ∧
     (∀ t u : Fin 1, cfinal.pc t = .body → cfinal.pc u = .body → t = u) ∧
     (∀ t : Fin 1, cfinal.pc t = .finished → cfinal.phase = .complete) ∧
     ((∀ t : Fin 1, cfinal.pc t = .finished) → 0 < 1 → cfinal.body_runs = 1)) :=
  ⟨reachable_cfinal, c9_concurrent_once reachable_cfinal⟩

end DsLogger
